import Mathlib

/-!
# Verification of the Catalyst-CE core task / installation engine

Shallow embedding of the background-task manager
(`src/core/src/background_task_manager.cpp`), the game-management
service (`src/core/src/basic_game_management_service.cpp`) and the IPC
state initialisation (`src/core/src/core_ipc_service.cpp`), together
with theorems settling the specification claims about them.

Conventions: C++ `float` progress values are modelled as `Rat`
(all values appearing in the relevant code paths are exact),
`std::map` / assoc containers as association lists, fallible calls as
`Option` / `Except`, and worker side effects (files downloaded, tasks
started, cancellations requested) as explicit fields threaded through
the state.
-/

set_option autoImplicit false

namespace CatalystCE

/-! ## Task data model (`background_task_manager.h`) -/

/-- `enum class TaskStatus` of `background_task_manager.h`. -/
inductive TaskStatus where
  | kPending
  | kRunning
  | kPaused
  | kSucceeded
  | kFailed
  | kCancelled
deriving DecidableEq, Repr

/-- `struct TaskInfo` of `background_task_manager.h`: id, status,
progress percentage (0.0 to 100.0), description, optional error. -/
structure TaskInfo where
  id : Nat
  status : TaskStatus
  progress_percentage : Rat
  description : String
  error_message : Option String
deriving DecidableEq, Repr

/-- `struct TaskInternal` of `background_task_manager.cpp`: the stored
`TaskInfo` plus the cancellation flag and the mutex-protected
`current_progress` / `current_description` fields written by the
worker's `UpdateProgress`. -/
structure TaskInternal where
  info : TaskInfo
  cancellation_requested : Bool
  current_progress : Rat
  current_description : String
deriving DecidableEq, Repr

/-- Outcome of running the user's work function inside the wrapper:
it returns a `Bool`, or throws (the caught message is recorded). -/
inductive WorkOutcome where
  | ret (success : Bool)
  | threw (msg : String)
deriving DecidableEq, Repr

/-- The `TaskInternal` state set up by `StartTask` before the wrapper
runs (`background_task_manager.cpp`, lines 60-65): status `kPending`,
zero progress, initial description in both the info and the internal
progress fields. -/
def initTask (id : Nat) (initial_description : String) : TaskInternal :=
  { info := { id := id
              status := .kPending
              progress_percentage := 0
              description := initial_description
              error_message := none }
    cancellation_requested := false
    current_progress := 0
    current_description := initial_description }

/-- One `UpdateProgress` call (`TaskInternal::UpdateProgress`):
stores the reported percentage and description. -/
def updateProgress (t : TaskInternal) (r : Rat × String) : TaskInternal :=
  { t with current_progress := r.1, current_description := r.2 }

/-- The sequence of progress reports issued by the work function,
applied in order. -/
def applyReports (t : TaskInternal) (reports : List (Rat × String)) : TaskInternal :=
  reports.foldl updateProgress t

/-- The `task_wrapper` lambda of `BasicBackgroundTaskManager::StartTask`
(`background_task_manager.cpp`, lines 69-132), run to completion:
status is first set to `kRunning`; the work function runs, issuing
`reports` and ending with `outcome` (a returned `Bool`, or a thrown
exception whose message is caught); then the final-status block runs
with the cancellation flag holding `cancelRequested`: a requested
cancellation wins over everything, otherwise success sets `kSucceeded`
with stored progress forced to 100, otherwise `kFailed` with a
non-empty message (`"Task failed"` when the caught message is empty).
The stored description is refreshed from the internal state. -/
def runWrapper (t : TaskInternal) (reports : List (Rat × String))
    (outcome : WorkOutcome) (cancelRequested : Bool) : TaskInternal :=
  let t1 : TaskInternal := { t with info := { t.info with status := .kRunning } }
  let t2 := applyReports t1 reports
  let success : Bool := match outcome with
    | .ret b => b
    | .threw _ => false
  let error_msg : String := match outcome with
    | .ret _ => ""
    | .threw m => m
  let t3 : TaskInternal := { t2 with cancellation_requested := cancelRequested }
  let info3 : TaskInfo :=
    if cancelRequested then
      { t3.info with status := .kCancelled }
    else if success then
      { t3.info with status := .kSucceeded, progress_percentage := 100 }
    else
      { t3.info with status := .kFailed
                     error_message := some (if error_msg = "" then "Task failed" else error_msg) }
  { t3 with info := { info3 with description := t3.current_description } }

/-- `BasicBackgroundTaskManager::GetTaskInfo` (lines 149-188): returns
a copy of the stored `TaskInfo` whose progress and description are
overwritten with the internal `current_progress` /
`current_description` fields. -/
def getTaskInfo (t : TaskInternal) : TaskInfo :=
  { t.info with progress_percentage := t.current_progress
                description := t.current_description }

/-! ## Interleaved observation model of one task's lifetime

For the monotonicity claim the wrapper's two status writes and the
externally triggered `RequestCancellation` may interleave arbitrarily.
One task's history is a list of events; each event's effect on the
stored state is exactly the corresponding guarded write in
`background_task_manager.cpp` (a guard that fails leaves the state
unchanged, as in the source, where e.g. `RequestCancellation` only
sets the flag for a pending/running task). -/

/-- Events touching one task's stored state:
`wrapperBegin` is the status-to-`kRunning` block at the top of
`task_wrapper` (lines 70-81); `report` is an `UpdateProgress` call
from the work function; `cancelRequest` is
`BasicBackgroundTaskManager::RequestCancellation` (lines 243-256);
`finalize` is the final-status block of `task_wrapper`
(lines 110-130) with the work's outcome. -/
inductive TaskEvent where
  | wrapperBegin
  | report (r : Rat × String)
  | cancelRequest
  | finalize (outcome : WorkOutcome)
deriving DecidableEq, Repr

/-- One task's stored state plus the control position of its (single)
worker thread: whether the wrapper's begin block has run and whether
its final-status block has run.  The worker executes
`wrapperBegin`, then its reports, then `finalize`, exactly once each
and in that order; the flags record that position so arbitrary
interleavings with `cancelRequest` events can be replayed. -/
structure TaskLifeState where
  internal : TaskInternal
  beganRun : Bool
  finalized : Bool
deriving DecidableEq, Repr

/-- Initial lifetime state: the `TaskInternal` registered by
`StartTask`, worker not yet begun. -/
def initLife (id : Nat) (initial_description : String) : TaskLifeState :=
  { internal := initTask id initial_description
    beganRun := false
    finalized := false }

/-- Effect of one event on the task state.  Guards mirror the source:
the begin block runs once before the work, the final block once after
it, `RequestCancellation` sets the flag only while the stored status
is pending or running, and progress reports only happen while the
work function is executing. -/
def applyEvent (s : TaskLifeState) (e : TaskEvent) : TaskLifeState :=
  match e with
  | .wrapperBegin =>
      if s.beganRun || s.finalized then s
      else
        { s with beganRun := true
                 internal := { s.internal with
                   info := { s.internal.info with status := .kRunning } } }
  | .report r =>
      if s.beganRun && !s.finalized then
        { s with internal := updateProgress s.internal r }
      else s
  | .cancelRequest =>
      if s.internal.info.status = .kPending || s.internal.info.status = .kRunning then
        { s with internal := { s.internal with cancellation_requested := true } }
      else s
  | .finalize outcome =>
      if s.beganRun && !s.finalized then
        let t := s.internal
        let success : Bool := match outcome with
          | .ret b => b
          | .threw _ => false
        let error_msg : String := match outcome with
          | .ret _ => ""
          | .threw m => m
        let info3 : TaskInfo :=
          if t.cancellation_requested then
            { t.info with status := .kCancelled }
          else if success then
            { t.info with status := .kSucceeded, progress_percentage := 100 }
          else
            { t.info with status := .kFailed
                          error_message := some (if error_msg = "" then "Task failed" else error_msg) }
        { s with finalized := true
                 internal := { t with info := { info3 with description := t.current_description } } }
      else s

/-- Replay a history of events from a starting state. -/
def runEvents (s : TaskLifeState) (events : List TaskEvent) : TaskLifeState :=
  events.foldl applyEvent s

/-- Height of a status in the lattice
`Pending → Running → {Succeeded, Failed, Cancelled}`. -/
def statusRank : TaskStatus → Nat
  | .kPending => 0
  | .kRunning => 1
  | .kPaused => 1
  | .kSucceeded => 2
  | .kFailed => 2
  | .kCancelled => 2

/-- A terminal status. -/
def TaskStatus.isTerminal : TaskStatus → Bool
  | .kSucceeded => true
  | .kFailed => true
  | .kCancelled => true
  | _ => false

/-- Structural invariant tying the stored status to the worker's
control position: pending before the begin block, running strictly
between the two wrapper blocks, terminal only once the final block
has run. -/
def LifeWF (s : TaskLifeState) : Prop :=
  (s.internal.info.status = .kPending ∧ s.beganRun = false ∧ s.finalized = false) ∨
  (s.internal.info.status = .kRunning ∧ s.beganRun = true ∧ s.finalized = false) ∨
  (s.internal.info.status.isTerminal = true ∧ s.beganRun = true ∧ s.finalized = true)

/-! ## Game-management service state
(`basic_game_management_service.cpp`)

`active_operations_` is `std::map<std::string, TaskId>` guarded by
`active_operations_mutex_`; we model it as an association list whose
key-uniqueness is the §3 guard invariant.  Calls made by the service
to the injected `IBackgroundTaskManager` are recorded explicitly:
`started_tasks` collects every TaskId handed out by `StartTask` (each
such call spawns the worker), `cancellation_requests` every TaskId
passed to `RequestCancellation`. -/

/-- `GameInfo` from `game_management_service.h` as loaded by
`LoadGamesFromFile`. -/
structure GameInfo where
  id : String
  name : String
  install_path : String
  executable_path : String
  version : String
deriving DecidableEq, Repr

/-- Observable state of `BasicGameManagementService` plus the recorded
interactions with the background task manager. -/
structure ServiceState where
  active_operations : List (String × Nat)
  next_task_id : Nat
  started_tasks : List Nat
  cancellation_requests : List Nat
deriving DecidableEq, Repr

/-- Result of an install/update/verify request as seen by its caller:
`ok` for `absl::OkStatus`, `alreadyInProgress` for the
`absl::AlreadyExistsError` taken when `active_operations_` already
holds the title. -/
inductive OpResult where
  | ok
  | alreadyInProgress
deriving DecidableEq, Repr

/-- `BasicGameManagementService::InstallGame`
(`basic_game_management_service.cpp`, lines 348-504), after the
pre-task path checks succeed: the install task is handed to
`StartTask` (which registers and spawns it) *first*; only then is
`active_operations_` checked under the mutex.  When another operation
for the title is already registered, the service requests cancellation
of the task it just started and returns `AlreadyExistsError`;
otherwise it registers the new entry and returns `OkStatus`.
`UpdateGame` (lines 506-655) and `VerifyGame` (lines 657-773) follow
the identical start-then-check structure. -/
def installGame (s : ServiceState) (game_id : String) : OpResult × ServiceState :=
  let task_id := s.next_task_id
  let s1 : ServiceState :=
    { s with next_task_id := s.next_task_id + 1
             started_tasks := s.started_tasks ++ [task_id] }
  match s1.active_operations.lookup game_id with
  | some _ =>
      (.alreadyInProgress,
        { s1 with cancellation_requests := s1.cancellation_requests ++ [task_id] })
  | none =>
      (.ok, { s1 with active_operations := (game_id, task_id) :: s1.active_operations })

/-- Result of `CancelOperation`: `okAccepted` for `absl::OkStatus`
(request forwarded), `notFound` for the `absl::NotFoundError` taken
when the title has no active operation. -/
inductive CancelResult where
  | okAccepted
  | notFound
deriving DecidableEq, Repr

/-- `BasicGameManagementService::CancelOperation` (lines 313-344):
under the mutex, look up the title in `active_operations_`; if found,
erase the entry immediately and (after unlocking) forward the owning
TaskId to `RequestCancellation`, returning `OkStatus`; otherwise
return `NotFoundError` leaving everything untouched. -/
def cancelOperation (s : ServiceState) (game_id : String) : CancelResult × ServiceState :=
  match s.active_operations.lookup game_id with
  | some task_to_cancel =>
      (.okAccepted,
        { s with active_operations := s.active_operations.eraseP (fun p => p.1 == game_id)
                 cancellation_requests := s.cancellation_requests ++ [task_to_cancel] })
  | none => (.notFound, s)

/-- The `absl::MakeCleanup` body shared by the install, update and
verify task closures (e.g. lines 374-378): under the mutex, erase the
title's entry from `active_operations_`.  It runs when the closure's
scope exits, on every path. -/
def cleanupRelease (s : ServiceState) (game_id : String) : ServiceState :=
  { s with active_operations := s.active_operations.eraseP (fun p => p.1 == game_id) }

/-- The ways the install/update/verify closure body can exit
(every `return false`, the final `return true`, and the two
`catch` blocks); the cleanup must fire on each. -/
inductive ClosureExit where
  | success
  | failureReturn
  | exceptionCaught (msg : String)
  | cancelledReturn
deriving DecidableEq, Repr

/-- A task closure running to its scope exit: the body produces some
exit, then the `absl::Cleanup` releases the guard entry.  The body
itself never touches `active_operations_` (only the cleanup does), so
the post-state is `cleanupRelease` of the state at exit regardless of
which exit was taken. -/
def runClosureExit (s : ServiceState) (game_id : String) (_e : ClosureExit) : ServiceState :=
  cleanupRelease s game_id

/-! ## File hashing and the install file loop
(`basic_game_management_service.cpp`, lines 413-467 and 866-906)

Filesystem and network effects are oracles: `dirCreateOk` says whether
`fs::create_directories` succeeds for a destination, `downloadOk`
whether `DownloadFile` succeeds for a url, and `hashOf` gives the
picosha2 hex digest of the bytes on disk at a path (`none` when the
file cannot be opened). -/

/-- `absl::EqualsIgnoreCase`: ASCII case-insensitive equality,
comparing the two character sequences lowered character by
character. -/
def eqIgnoreCase (a b : String) : Bool :=
  a.data.map Char.toLower == b.data.map Char.toLower

/-- Structured result of `VerifyFileHash`: `okSkippedEmpty` is the
early `OkStatus` for an empty expected hash, `okMatched` the
`OkStatus` after a matching digest, `fileOpenFailed` the
`NotFoundError` when the file cannot be opened, `mismatch` the
`DataLossError`. -/
inductive HashVerifyResult where
  | okSkippedEmpty
  | okMatched
  | fileOpenFailed
  | mismatch
deriving DecidableEq, Repr

/-- Whether the verification result is an `absl::OkStatus`. -/
def HashVerifyResult.isOk : HashVerifyResult → Bool
  | .okSkippedEmpty => true
  | .okMatched => true
  | _ => false

/-- `BasicGameManagementService::VerifyFileHash` (lines 866-906): an
empty expected hash returns `OkStatus` before the file is ever opened;
otherwise the file is opened (failure is `NotFoundError`), its
picosha2 digest computed, and compared case-insensitively against the
expected hash (`OkStatus` or `DataLossError`). -/
def verifyFileHash (hashOf : String → Option String)
    (file_path : String) (expected_hash : String) : HashVerifyResult :=
  if expected_hash = "" then .okSkippedEmpty
  else
    match hashOf file_path with
    | none => .fileOpenFailed
    | some actual_hash =>
        if eqIgnoreCase actual_hash expected_hash then .okMatched else .mismatch

/-- One entry of the remote manifest's `files` array as read by the
install loop: `path`, `url`, `hash`. -/
structure FileEntry where
  path : String
  url : String
  hash : String
deriving DecidableEq, Repr

/-- Filesystem/network oracle for one install run. -/
structure FsOracle where
  dirCreateOk : String → Bool
  downloadOk : String → Bool
  hashOf : String → Option String

/-- Outcome of the install loop body for one file entry
(lines 418-459): directory creation failure, download failure, and
hash-verification failure each `return false`; otherwise the entry is
processed successfully. -/
inductive FileStepResult where
  | stepOk
  | dirFailed
  | downloadFailed
  | verifyFailed (r : HashVerifyResult)
deriving DecidableEq, Repr

/-- Destination of a manifest entry:
`install_path / fs::path(relative_path).lexically_normal()`. -/
def destPath (install_path : String) (e : FileEntry) : String :=
  install_path ++ "/" ++ e.path

/-- The body of the install loop for one file entry: ensure the parent
directory exists, download, verify the hash. -/
def processFile (o : FsOracle) (install_path : String) (e : FileEntry) : FileStepResult :=
  if !o.dirCreateOk (destPath install_path e) then .dirFailed
  else if !o.downloadOk e.url then .downloadFailed
  else
    match verifyFileHash o.hashOf (destPath install_path e) e.hash with
    | .okSkippedEmpty => .stepOk
    | .okMatched => .stepOk
    | .fileOpenFailed => .verifyFailed .fileOpenFailed
    | .mismatch => .verifyFailed .mismatch

/-- The `for (const auto& file_entry : files_array)` loop
(lines 418-459): processes entries in order; the first failing entry
makes the closure `return false` and no further entry is touched.
Returns the loop's verdict together with the list of entries actually
processed (attempted). -/
def runInstallLoop (o : FsOracle) (install_path : String) :
    List FileEntry → Bool × List FileEntry
  | [] => (true, [])
  | e :: rest =>
      match processFile o install_path e with
      | .stepOk =>
          let r := runInstallLoop o install_path rest
          (r.1, e :: r.2)
      | _ => (false, [e])

/-- Result of the file-processing and manifest-saving phase of the
install closure. -/
structure InstallRun where
  returnedSuccess : Bool
  saveCalled : Bool
  attempted : List FileEntry
deriving DecidableEq, Repr

/-- Checkpoints 3 and 4 of the install closure (lines 413-471): run
the file loop; only if every file was processed successfully is
`SaveLocalManifest` called (checkpoint 4), and the closure returns
`true` exactly when that save also succeeds. -/
def installFilesPhase (o : FsOracle) (install_path : String) (saveOk : Bool)
    (files : List FileEntry) : InstallRun :=
  let r := runInstallLoop o install_path files
  if r.1 then
    { returnedSuccess := saveOk, saveCalled := true, attempted := r.2 }
  else
    { returnedSuccess := false, saveCalled := false, attempted := r.2 }

/-! ## Local manifest documents (`nlohmann::json`)
(`basic_game_management_service.cpp`, lines 680-747 and 809-864) -/

/-- A JSON value as manipulated through `nlohmann::json`. -/
inductive Json where
  | null
  | boolean (b : Bool)
  | num (n : Int)
  | str (s : String)
  | arr (xs : List Json)
  | obj (fields : List (String × Json))

/-- Member access `doc[key]` / `doc.contains(key)`: defined (only) on
objects. -/
def Json.getField : Json → String → Option Json
  | .obj fields, k => fields.lookup k
  | _, _ => none

/-- `value.get<std::string>()`. -/
def Json.getStr : Json → Option String
  | .str s => some s
  | _ => none

/-- The relative paths the install loop reads out of a validated
manifest: for each entry of the `files` array,
`file_entry["path"].get<std::string>()` (lines 418-420). -/
def recordedPaths (manifest : Json) : Option (List String) :=
  match manifest.getField "files" with
  | some (.arr entries) =>
      entries.mapM (fun e => (e.getField "path").bind Json.getStr)
  | _ => none

/-- On-disk store of manifest documents, keyed by full file path.
Writing and re-parsing a `nlohmann::json` document yields the same
value, so the store holds documents directly. -/
def ManifestStore := List (String × Json)

/-- `<install_path>/.launcher_metadata/<game_id>_manifest.json`
(lines 811-812 and 839). -/
def manifestFilePath (game_id install_path : String) : String :=
  install_path ++ "/.launcher_metadata/" ++ game_id ++ "_manifest.json"

/-- `BasicGameManagementService::SaveLocalManifest` (lines 809-835):
writes `manifest_data` to the per-title metadata file. -/
def saveLocalManifest (store : ManifestStore) (game_id install_path : String)
    (manifest_data : Json) : ManifestStore :=
  (manifestFilePath game_id install_path, manifest_data) :: store

/-- `BasicGameManagementService::LoadLocalManifest` (lines 837-864):
reads and parses the per-title metadata file, `NotFoundError` when
absent. -/
def loadLocalManifest (store : ManifestStore) (game_id install_path : String) :
    Except String Json :=
  match (show List (String × Json) from store).lookup (manifestFilePath game_id install_path) with
  | some doc => .ok doc
  | none => .error "Manifest file not found."

/-- The relative paths enumerated by the `VerifyGame` per-file loop
(lines 691-731): after checking `contains("files")`, the loop
iterates `files_to_verify` and takes `it.key()` as the relative path.
In `nlohmann::json`, `key()` is defined only for object iterators:
for a non-empty array (or any other non-object with `size() != 0`)
the first call throws `invalid_iterator.207`, which the closure's
`catch` turns into a failed task; when `size() == 0` the loop is
skipped entirely. -/
def verifyEnumPaths (local_manifest : Json) : Except String (List String) :=
  match local_manifest.getField "files" with
  | none => .error "local manifest missing files field"
  | some files =>
      match files with
      | .obj fields => .ok (fields.map Prod.fst)
      | .arr [] => .ok []
      | .null => .ok []
      | _ => .error "invalid_iterator 207 cannot use key with non-object iterators"

/-! ## Externally visible game states
(`game_status.h` and `core_ipc_service.cpp`, lines 67-100) -/

/-- `enum class GameState` of `game_status.h`. -/
inductive GameState where
  | Unknown
  | NotInstalled
  | CheckingStatus
  | UpdateAvailable
  | ReadyToLaunch
  | InstallPending
  | Downloading
  | Verifying
  | Installing
  | LaunchPending
  | Launching
  | Running
  | InstallFailed
  | LaunchFailed
  | UpdateFailed
  | Idle
deriving DecidableEq, Repr

/-- `GameStatusUpdate` as held in
`CoreIPCService::current_game_statuses_`. -/
structure GameStatusUpdate where
  game_id : String
  current_state : GameState
  progress_percent : Nat
  message : String
deriving DecidableEq, Repr

/-- `BasicGameManagementService::GetInstalledGames` (lines 170-180):
returns every game loaded from the catalog file, with no filtering on
actual installation status. -/
def getInstalledGames (loaded_games : List GameInfo) : List GameInfo :=
  loaded_games

/-- `CoreIPCService::InitializeGameStates` (lines 67-100): for each
game returned by `GetInstalledGames`, create a status entry in state
`ReadyToLaunch` with progress 100 and message `"Ready to Play"`. -/
def initGameStates (loaded_games : List GameInfo) : List (String × GameStatusUpdate) :=
  (getInstalledGames loaded_games).map (fun g =>
    (g.id, { game_id := g.id
             current_state := .ReadyToLaunch
             progress_percent := 100
             message := "Ready to Play" }))

/-! ## Fixtures: concrete inputs used by witnesses and counterexamples -/

/-- Oracle for which every directory creation and download succeeds
and every downloaded file hashes to `"aa"`. -/
def cOracle : FsOracle :=
  { dirCreateOk := fun _ => true
    downloadOk := fun _ => true
    hashOf := fun _ => some "aa" }

/-- Oracle for which downloads succeed but no downloaded file can be
reopened for hashing. -/
def cOracleNoFile : FsOracle :=
  { dirCreateOk := fun _ => true
    downloadOk := fun _ => true
    hashOf := fun _ => none }

/-- Manifest entry whose expected hash `"bb"` will not match the
on-disk digest `"aa"` of `cOracle`. -/
def cBadEntry : FileEntry := { path := "data.bin", url := "u", hash := "bb" }

/-- Manifest entry carrying an empty expected hash. -/
def cEmptyHashEntry : FileEntry := { path := "data.bin", url := "u", hash := "" }

/-- A parsed remote manifest for title `alpha` with a one-entry
`files` array, as validated by the install closure. -/
def cManifest : Json :=
  .obj [("files", .arr [.obj [("path", .str "data.bin"), ("url", .str "u"), ("hash", .str "h")]])]

/-- A catalog title that has no LocalManifest on disk (not
pre-installed). -/
def cBetaInfo : GameInfo :=
  { id := "beta", name := "Beta", install_path := "C:/g"
    executable_path := "beta.exe", version := "1.0" }

/-- Service state in which title `alpha` has an active operation owned
by task 1, and that task is the only one started so far. -/
def cState0 : ServiceState :=
  { active_operations := [("alpha", 1)]
    next_task_id := 2
    started_tasks := [1]
    cancellation_requests := [] }

/-! ## Helper lemmas -/

theorem lifeWF_init (id : Nat) (d : String) : LifeWF (initLife id d) := by
  left
  exact ⟨rfl, rfl, rfl⟩

theorem lifeWF_apply (s : TaskLifeState) (e : TaskEvent) (hs : LifeWF s) :
    LifeWF (applyEvent s e) := by
  obtain ⟨⟨⟨tid, st, pr, de, er⟩, cr, cp, cd⟩, br, fz⟩ := s
  simp only [LifeWF] at hs ⊢
  cases e with
  | wrapperBegin =>
      cases st <;> cases br <;> cases fz <;>
        simp_all [applyEvent, TaskStatus.isTerminal]
  | report r =>
      cases st <;> cases br <;> cases fz <;>
        simp_all [applyEvent, TaskStatus.isTerminal, updateProgress]
  | cancelRequest =>
      cases st <;> cases br <;> cases fz <;>
        simp_all [applyEvent, TaskStatus.isTerminal]
  | finalize outcome =>
      cases outcome with
      | ret b =>
          cases b <;> cases cr <;> cases st <;> cases br <;> cases fz <;>
            simp_all [applyEvent, TaskStatus.isTerminal]
      | threw m =>
          cases cr <;> cases st <;> cases br <;> cases fz <;>
            simp_all [applyEvent, TaskStatus.isTerminal]

theorem statusRank_mono_apply (s : TaskLifeState) (e : TaskEvent) (hs : LifeWF s) :
    statusRank s.internal.info.status ≤ statusRank (applyEvent s e).internal.info.status := by
  obtain ⟨⟨⟨tid, st, pr, de, er⟩, cr, cp, cd⟩, br, fz⟩ := s
  simp only [LifeWF] at hs
  cases e with
  | wrapperBegin =>
      cases st <;> cases br <;> cases fz <;>
        simp_all [applyEvent, TaskStatus.isTerminal, statusRank]
  | report r =>
      cases st <;> cases br <;> cases fz <;>
        simp_all [applyEvent, TaskStatus.isTerminal, statusRank, updateProgress]
  | cancelRequest =>
      cases st <;> cases br <;> cases fz <;>
        simp_all [applyEvent, TaskStatus.isTerminal, statusRank]
  | finalize outcome =>
      cases outcome with
      | ret b =>
          cases b <;> cases cr <;> cases st <;> cases br <;> cases fz <;>
            simp_all [applyEvent, TaskStatus.isTerminal, statusRank]
      | threw m =>
          cases cr <;> cases st <;> cases br <;> cases fz <;>
            simp_all [applyEvent, TaskStatus.isTerminal, statusRank]

theorem terminal_frozen_apply (s : TaskLifeState) (e : TaskEvent) (hs : LifeWF s)
    (ht : s.internal.info.status.isTerminal = true) :
    (applyEvent s e).internal.info.status = s.internal.info.status := by
  obtain ⟨⟨⟨tid, st, pr, de, er⟩, cr, cp, cd⟩, br, fz⟩ := s
  simp only [LifeWF] at hs
  cases e with
  | wrapperBegin =>
      cases st <;> cases br <;> cases fz <;>
        simp_all [applyEvent, TaskStatus.isTerminal]
  | report r =>
      cases st <;> cases br <;> cases fz <;>
        simp_all [applyEvent, TaskStatus.isTerminal, updateProgress]
  | cancelRequest =>
      cases st <;> cases br <;> cases fz <;>
        simp_all [applyEvent, TaskStatus.isTerminal]
  | finalize outcome =>
      cases outcome with
      | ret b =>
          cases b <;> cases cr <;> cases st <;> cases br <;> cases fz <;>
            simp_all [applyEvent, TaskStatus.isTerminal]
      | threw m =>
          cases cr <;> cases st <;> cases br <;> cases fz <;>
            simp_all [applyEvent, TaskStatus.isTerminal]

theorem lifeWF_runEvents (s : TaskLifeState) (events : List TaskEvent) (hs : LifeWF s) :
    LifeWF (runEvents s events) := by
  induction events generalizing s with
  | nil => exact hs
  | cons e rest ih => exact ih (applyEvent s e) (lifeWF_apply s e hs)

theorem statusRank_mono_runEvents (s : TaskLifeState) (events : List TaskEvent)
    (hs : LifeWF s) :
    statusRank s.internal.info.status ≤ statusRank (runEvents s events).internal.info.status := by
  induction events generalizing s with
  | nil => exact Nat.le_refl _
  | cons e rest ih =>
      exact Nat.le_trans (statusRank_mono_apply s e hs)
        (ih (applyEvent s e) (lifeWF_apply s e hs))

theorem terminal_frozen_runEvents (s : TaskLifeState) (events : List TaskEvent)
    (hs : LifeWF s) (ht : s.internal.info.status.isTerminal = true) :
    (runEvents s events).internal.info.status = s.internal.info.status := by
  induction events generalizing s with
  | nil => rfl
  | cons e rest ih =>
      have hfix := terminal_frozen_apply s e hs ht
      have := ih (applyEvent s e) (lifeWF_apply s e hs) (by rw [hfix]; exact ht)
      rw [runEvents, List.foldl_cons, ← runEvents, this, hfix]

theorem applyReports_progress (t : TaskInternal) (reports : List (Rat × String)) :
    (applyReports t reports).current_progress
      = (reports.map Prod.fst).getLastD t.current_progress := by
  induction reports generalizing t with
  | nil => rfl
  | cons r rest ih =>
      rw [applyReports, List.foldl_cons, ← applyReports, ih, List.map_cons,
        List.getLastD_cons]
      rfl

theorem applyReports_description (t : TaskInternal) (reports : List (Rat × String)) :
    (applyReports t reports).current_description
      = (reports.map Prod.snd).getLastD t.current_description := by
  induction reports generalizing t with
  | nil => rfl
  | cons r rest ih =>
      rw [applyReports, List.foldl_cons, ← applyReports, ih, List.map_cons,
        List.getLastD_cons]
      rfl

theorem lookup_none_of_not_mem_keys {l : List (String × Nat)} {k : String}
    (h : k ∉ l.map Prod.fst) : l.lookup k = none := by
  induction l with
  | nil => rfl
  | cons a l ih =>
      obtain ⟨k0, v0⟩ := a
      simp only [List.map_cons, List.mem_cons, not_or] at h
      have hk : (k == k0) = false := beq_eq_false_iff_ne.mpr h.1
      simp [List.lookup, hk, ih h.2]

theorem not_mem_keys_of_lookup_none {l : List (String × Nat)} {k : String}
    (h : l.lookup k = none) : k ∉ l.map Prod.fst := by
  induction l with
  | nil => simp
  | cons a l ih =>
      obtain ⟨k0, v0⟩ := a
      by_cases hk : k = k0
      · subst hk
        simp [List.lookup] at h
      · have hk' : (k == k0) = false := beq_eq_false_iff_ne.mpr hk
        simp only [List.lookup, hk'] at h
        simp [hk, ih h]

theorem keys_eraseP_nodup (l : List (String × Nat)) (p : String × Nat → Bool)
    (h : (l.map Prod.fst).Nodup) : ((l.eraseP p).map Prod.fst).Nodup :=
  h.sublist ((l.eraseP_sublist).map Prod.fst)

theorem lookup_eraseP_self (l : List (String × Nat)) (k : String)
    (h : (l.map Prod.fst).Nodup) :
    (l.eraseP (fun q => q.1 == k)).lookup k = none := by
  induction l with
  | nil => rfl
  | cons a l ih =>
      obtain ⟨k0, v0⟩ := a
      simp only [List.map_cons, List.nodup_cons] at h
      by_cases hk : k0 = k
      · subst hk
        simp only [List.eraseP_cons, beq_self_eq_true, cond_true]
        exact lookup_none_of_not_mem_keys h.1
      · have hk' : (k0 == k) = false := beq_eq_false_iff_ne.mpr hk
        have hk'' : (k == k0) = false := beq_eq_false_iff_ne.mpr (fun hc => hk hc.symm)
        simp only [List.eraseP_cons, hk', cond_false]
        simp [List.lookup, hk'', ih h.2]

theorem eraseP_key_no_match (l : List (String × Nat)) (k : String)
    (h : k ∉ l.map Prod.fst) : l.eraseP (fun q => q.1 == k) = l := by
  induction l with
  | nil => rfl
  | cons a l ih =>
      obtain ⟨k0, v0⟩ := a
      simp only [List.map_cons, List.mem_cons, not_or] at h
      have hk : (k0 == k) = false := beq_eq_false_iff_ne.mpr (fun hc => h.1 hc.symm)
      simp [List.eraseP_cons, hk, ih h.2]

theorem eraseP_key_idem (l : List (String × Nat)) (k : String)
    (h : (l.map Prod.fst).Nodup) :
    ((l.eraseP (fun q => q.1 == k)).eraseP (fun q => q.1 == k))
      = l.eraseP (fun q => q.1 == k) := by
  induction l with
  | nil => rfl
  | cons a l ih =>
      obtain ⟨k0, v0⟩ := a
      simp only [List.map_cons, List.nodup_cons] at h
      by_cases hk : k0 = k
      · subst hk
        simp only [List.eraseP_cons, beq_self_eq_true, cond_true]
        exact eraseP_key_no_match l k0 h.1
      · have hk' : (k0 == k) = false := beq_eq_false_iff_ne.mpr hk
        simp [List.eraseP_cons, hk', ih h.2]

theorem countP_key_le_one (l : List (String × Nat)) (k : String)
    (h : (l.map Prod.fst).Nodup) : l.countP (fun q => q.1 == k) ≤ 1 := by
  induction l with
  | nil => simp [List.countP_nil]
  | cons a l ih =>
      obtain ⟨k0, v0⟩ := a
      simp only [List.map_cons, List.nodup_cons] at h
      by_cases hk : k0 = k
      · subst hk
        have hz : l.countP (fun q => q.1 == k0) = 0 := by
          rw [List.countP_eq_zero]
          intro q hq
          intro hc
          exact h.1 (List.mem_map.mpr ⟨q, hq, eq_of_beq hc⟩)
        simp [List.countP_cons, hz]
      · have hk' : (k0 == k) = false := beq_eq_false_iff_ne.mpr hk
        simp [List.countP_cons, hk']
        exact ih h.2

theorem runInstallLoop_abort (o : FsOracle) (ip : String) (bad : FileEntry)
    (rest : List FileEntry) :
    ∀ pre : List FileEntry, (∀ f ∈ pre, processFile o ip f = .stepOk) →
      processFile o ip bad = .verifyFailed .mismatch →
      runInstallLoop o ip (pre ++ bad :: rest) = (false, pre ++ [bad])
  | [], _, hbad => by simp [runInstallLoop, hbad]
  | e :: pre, hpre, hbad => by
      have he : processFile o ip e = .stepOk := hpre e (by simp)
      have ih := runInstallLoop_abort o ip bad rest pre
        (fun f hf => hpre f (by simp [hf])) hbad
      simp [runInstallLoop, he, ih]

/-! ## Claims -/

/-- C1, counterexample: with an operation for `alpha` already active,
a second `InstallGame` request does return `AlreadyInProgress`, yet
`StartTask` has already been called for it — a second background task
(id 2) was created and started, refuting the claim that no second
task is ever created. -/
theorem c1_counterexample :
    (installGame cState0 "alpha").1 = .alreadyInProgress ∧
    (installGame cState0 "alpha").2.started_tasks = [1, 2] ∧
    (installGame cState0 "alpha").2.started_tasks ≠ cState0.started_tasks := by
  refine ⟨rfl, rfl, ?_⟩
  decide

/-- C1, amended: a duplicate install/update/verify request returns
`AlreadyInProgress` synchronously and leaves the guard map unchanged,
but only *after* a second background task has been created and started
by `StartTask`; the service then requests cancellation of that extra
task. -/
theorem c1_duplicate_rejected_after_task_start (s : ServiceState) (gid : String)
    (tid : Nat) (h : s.active_operations.lookup gid = some tid) :
    (installGame s gid).1 = .alreadyInProgress ∧
    (installGame s gid).2.active_operations = s.active_operations ∧
    (installGame s gid).2.started_tasks = s.started_tasks ++ [s.next_task_id] ∧
    (installGame s gid).2.cancellation_requests
      = s.cancellation_requests ++ [s.next_task_id] := by
  simp [installGame, h]

/-- C1, witness for the amended theorem at `cState0` / `alpha`. -/
theorem c1_duplicate_rejected_witness :
    (installGame cState0 "alpha").1 = .alreadyInProgress ∧
    (installGame cState0 "alpha").2.active_operations = cState0.active_operations ∧
    (installGame cState0 "alpha").2.started_tasks
      = cState0.started_tasks ++ [cState0.next_task_id] ∧
    (installGame cState0 "alpha").2.cancellation_requests
      = cState0.cancellation_requests ++ [cState0.next_task_id] :=
  c1_duplicate_rejected_after_task_start cState0 "alpha" 1 rfl

/-- C2: the round-trip fails on the code.  The install pipeline
records `files` as an array and reads `"data.bin"` from it; the saved
document loads back unchanged; but the verify loop enumerates relative
paths with `it.key()`, which on an array iterator throws
`invalid_iterator.207` — it never yields the recorded path list. -/
theorem c2_roundtrip_broken :
    recordedPaths cManifest = some ["data.bin"] ∧
    loadLocalManifest (saveLocalManifest ([] : ManifestStore) "alpha" "base" cManifest)
      "alpha" "base" = .ok cManifest ∧
    verifyEnumPaths cManifest
      = .error "invalid_iterator 207 cannot use key with non-object iterators" ∧
    verifyEnumPaths cManifest ≠ .ok ["data.bin"] := by
  refine ⟨rfl, rfl, rfl, ?_⟩
  intro hcontra
  simp [verifyEnumPaths, cManifest, Json.getField] at hcontra

/-- C3, counterexample: a work function that never checks the
cancellation flag, runs to natural completion and returns `true`,
with a cancellation requested while it ran, ends in `kCancelled` —
not `kSucceeded` as the claim states — because the final-status block
gives the flag priority over the work's result. -/
theorem c3_counterexample :
    (runWrapper (initTask 1 "Installing alpha") [(1, "Installation complete.")]
      (.ret true) true).info.status = .kCancelled ∧
    TaskStatus.kCancelled ≠ TaskStatus.kSucceeded := by
  refine ⟨rfl, ?_⟩
  decide

/-- C3, amended: a cancellation request does not stop execution — the
work still runs to natural completion, every progress report it issues
lands, and its result is computed — but the task's final recorded
status is `kCancelled`, not `kSucceeded`, because the wrapper's
final-status block consults the flag first. -/
theorem c3_cancel_flag_wins (tid : Nat) (desc : String)
    (reports : List (Rat × String)) :
    (runWrapper (initTask tid desc) reports (.ret true) true).info.status
      = .kCancelled ∧
    (runWrapper (initTask tid desc) reports (.ret true) true).current_description
      = (reports.map Prod.snd).getLastD desc ∧
    (runWrapper (initTask tid desc) reports (.ret true) true).current_progress
      = (reports.map Prod.fst).getLastD 0 := by
  refine ⟨rfl, ?_, ?_⟩
  · show (applyReports _ reports).current_description = _
    rw [applyReports_description]
    rfl
  · show (applyReports _ reports).current_progress = _
    rw [applyReports_progress]
    rfl

/-- C4, counterexample: a work function that returns `true` without
reporting progress (no cancellation involved) ends `kSucceeded`, yet
the progress observed through `GetTaskInfo` is 0, not 100: the stored
100 is overwritten by the internal `current_progress` in the returned
copy. -/
theorem c4_counterexample :
    (getTaskInfo (runWrapper (initTask 1 "Installing alpha") [] (.ret true) false)).status
      = .kSucceeded ∧
    (getTaskInfo (runWrapper (initTask 1 "Installing alpha") [] (.ret true) false)).progress_percentage
      = 0 ∧
    (0 : Rat) ≠ 100 := by
  refine ⟨rfl, rfl, ?_⟩
  norm_num

/-- C4, amended: provided no cancellation was requested, a work
function returning `true` ends the task `kSucceeded` with the *stored*
progress forced to 100, but `GetTaskInfo` reports the last progress
value the work itself reported (so 100 is observed only if the work
reported it); a work function that throws ends the task `kFailed`
with a non-empty error message, also visible through `GetTaskInfo`. -/
theorem c4_terminal_outcomes (tid : Nat) (desc : String)
    (reports : List (Rat × String)) (msg : String) :
    ((runWrapper (initTask tid desc) reports (.ret true) false).info.status
        = .kSucceeded ∧
     (runWrapper (initTask tid desc) reports (.ret true) false).info.progress_percentage
        = 100 ∧
     (getTaskInfo (runWrapper (initTask tid desc) reports (.ret true) false)).status
        = .kSucceeded ∧
     (getTaskInfo (runWrapper (initTask tid desc) reports (.ret true) false)).progress_percentage
        = (reports.map Prod.fst).getLastD 0) ∧
    ((runWrapper (initTask tid desc) reports (.threw msg) false).info.status
        = .kFailed ∧
     (getTaskInfo (runWrapper (initTask tid desc) reports (.threw msg) false)).status
        = .kFailed ∧
     ∃ e, (runWrapper (initTask tid desc) reports (.threw msg) false).info.error_message
        = some e ∧ e ≠ "") := by
  refine ⟨⟨rfl, rfl, rfl, ?_⟩, rfl, rfl, ?_⟩
  · show (applyReports _ reports).current_progress = _
    rw [applyReports_progress]
    rfl
  · refine ⟨if msg = "" then "Task failed" else msg, rfl, ?_⟩
    by_cases hm : msg = "" <;> simp [hm]

/-- C5: atomicity on hash mismatch — if the files before position `i`
all process cleanly and the file at position `i` fails its hash check,
the install closure aborts: `SaveLocalManifest` is never called, the
closure returns `false` (so, absent cancellation, the task ends
`kFailed`), and no file after position `i` is ever processed. -/
theorem c5_hash_mismatch_aborts (o : FsOracle) (install_path : String)
    (saveOk : Bool) (pre : List FileEntry) (bad : FileEntry) (rest : List FileEntry)
    (tid : Nat) (desc : String) (reports : List (Rat × String))
    (hpre : ∀ f ∈ pre, processFile o install_path f = .stepOk)
    (hbad : processFile o install_path bad = .verifyFailed .mismatch) :
    (installFilesPhase o install_path saveOk (pre ++ bad :: rest)).saveCalled = false ∧
    (installFilesPhase o install_path saveOk (pre ++ bad :: rest)).returnedSuccess = false ∧
    (installFilesPhase o install_path saveOk (pre ++ bad :: rest)).attempted = pre ++ [bad] ∧
    (runWrapper (initTask tid desc) reports
      (.ret (installFilesPhase o install_path saveOk (pre ++ bad :: rest)).returnedSuccess)
      false).info.status = .kFailed := by
  have hloop := runInstallLoop_abort o install_path bad rest pre hpre hbad
  have hphase : installFilesPhase o install_path saveOk (pre ++ bad :: rest)
      = { returnedSuccess := false, saveCalled := false, attempted := pre ++ [bad] } := by
    simp [installFilesPhase, hloop]
  rw [hphase]
  exact ⟨rfl, rfl, rfl, rfl⟩

/-- C5, witness: a one-file manifest whose only entry downloads to a
file hashing to `aa` against an expected hash `bb`. -/
theorem c5_hash_mismatch_witness :
    (installFilesPhase cOracle "base" true [cBadEntry]).saveCalled = false ∧
    (installFilesPhase cOracle "base" true [cBadEntry]).returnedSuccess = false ∧
    (installFilesPhase cOracle "base" true [cBadEntry]).attempted = [] ++ [cBadEntry] ∧
    (runWrapper (initTask 1 "Installing alpha") []
      (.ret (installFilesPhase cOracle "base" true [cBadEntry]).returnedSuccess)
      false).info.status = .kFailed := by
  have h := c5_hash_mismatch_aborts cOracle "base" true [] cBadEntry [] 1
    "Installing alpha" [] (by intro f hf; cases hf)
    (by decide)
  simpa using h

/-- C6: the guard invariant.  With unique keys (the `std::map`
representation invariant), there is at most one active-operations
entry per title at any instant; whatever exit path the closure takes,
the scope-exit cleanup leaves no entry for the title; the removal is
idempotent; and each service operation preserves key uniqueness. -/
theorem c6_guard_invariant (s : ServiceState) (gid gid2 : String) (e : ClosureExit)
    (h : (s.active_operations.map Prod.fst).Nodup) :
    (∀ t : String, s.active_operations.countP (fun q => q.1 == t) ≤ 1) ∧
    (runClosureExit s gid e).active_operations.lookup gid = none ∧
    runClosureExit (runClosureExit s gid e) gid e = runClosureExit s gid e ∧
    (((installGame s gid2).2.active_operations.map Prod.fst).Nodup) ∧
    (((cancelOperation s gid2).2.active_operations.map Prod.fst).Nodup) ∧
    (((runClosureExit s gid e).active_operations.map Prod.fst).Nodup) := by
  refine ⟨fun t => countP_key_le_one _ t h, ?_, ?_, ?_, ?_, ?_⟩
  · exact lookup_eraseP_self _ _ h
  · simp only [runClosureExit, cleanupRelease]
    rw [eraseP_key_idem _ _ h]
  · rcases hcase : s.active_operations.lookup gid2 with _ | tid
    · have hnm := not_mem_keys_of_lookup_none hcase
      simp [installGame, hcase, List.nodup_cons, hnm, h]
    · simp [installGame, hcase, h]
  · rcases hcase : s.active_operations.lookup gid2 with _ | tid
    · simp [cancelOperation, hcase, h]
    · simp only [cancelOperation, hcase]
      exact keys_eraseP_nodup _ _ h
  · simp only [runClosureExit, cleanupRelease]
    exact keys_eraseP_nodup _ _ h

/-- C6, witness at `cState0` (one active entry for `alpha`). -/
theorem c6_guard_witness :
    (∀ t : String, cState0.active_operations.countP (fun q => q.1 == t) ≤ 1) ∧
    (runClosureExit cState0 "alpha" .success).active_operations.lookup "alpha" = none ∧
    runClosureExit (runClosureExit cState0 "alpha" .success) "alpha" .success
      = runClosureExit cState0 "alpha" .success := by
  have h := c6_guard_invariant cState0 "alpha" "gamma" .success (by decide)
  exact ⟨h.1, h.2.1, h.2.2.1⟩

/-- C7, counterexample: title `beta` has no LocalManifest on disk (per
the data model it is not pre-installed), yet on first catalog load its
state is initialised to `ReadyToLaunch`, not `NotInstalled` as the
claim requires: `InitializeGameStates` marks every title returned by
the unfiltered `GetInstalledGames` as ready. -/
theorem c7_counterexample :
    loadLocalManifest ([] : ManifestStore) "beta" "C:/g"
      = .error "Manifest file not found." ∧
    ((initGameStates [cBetaInfo]).lookup "beta").map GameStatusUpdate.current_state
      = some .ReadyToLaunch ∧
    GameState.ReadyToLaunch ≠ GameState.NotInstalled := by
  refine ⟨rfl, rfl, ?_⟩
  decide

/-- C7, amended: on first catalog load, *every* known title's state is
initialised to `ReadyToLaunch` with progress 100, regardless of
whether it is actually installed (`GetInstalledGames` returns the
whole catalog unfiltered); no title is initialised to
`NotInstalled`. -/
theorem c7_all_titles_ready (loaded : List GameInfo) (gid : String)
    (h : ∃ g ∈ loaded, g.id = gid) :
    ∃ u, (initGameStates loaded).lookup gid = some u ∧
      u.current_state = .ReadyToLaunch ∧ u.progress_percent = 100 := by
  induction loaded with
  | nil =>
      obtain ⟨g, hg, _⟩ := h
      cases hg
  | cons g0 rest ih =>
      by_cases hid : gid = g0.id
      · refine ⟨{ game_id := g0.id, current_state := .ReadyToLaunch,
                  progress_percent := 100, message := "Ready to Play" }, ?_, rfl, rfl⟩
        have hb : (gid == g0.id) = true := beq_iff_eq.mpr hid
        simp [initGameStates, getInstalledGames, List.lookup, hb]
      · obtain ⟨g, hg, hgid⟩ := h
        have hmem : g ∈ rest := by
          rcases List.mem_cons.mp hg with h1 | h1
          · cases h1
            exact absurd hgid.symm hid
          · exact h1
        obtain ⟨u, hu, hs, hp⟩ := ih ⟨g, hmem, hgid⟩
        refine ⟨u, ?_, hs, hp⟩
        have hb : (gid == g0.id) = false := beq_eq_false_iff_ne.mpr hid
        simpa [initGameStates, getInstalledGames, List.lookup, hb] using hu

/-- C7, witness for the amended theorem: the not-installed `beta` is
initialised ready. -/
theorem c7_all_titles_ready_witness :
    ∃ u, (initGameStates [cBetaInfo]).lookup "beta" = some u ∧
      u.current_state = .ReadyToLaunch ∧ u.progress_percent = 100 :=
  c7_all_titles_ready [cBetaInfo] "beta" ⟨cBetaInfo, by simp, rfl⟩

/-- C8: cancel-request semantics.  With an active operation for the
title, `CancelOperation` returns success, forwards exactly the owning
TaskId to `RequestCancellation`, removes the guard entry immediately
(the title is observed free), and starts no task; with no active
operation it returns the NotFound error and changes nothing. -/
theorem c8_cancel_semantics (s : ServiceState) (gid : String) :
    (∀ tid, s.active_operations.lookup gid = some tid →
      (cancelOperation s gid).1 = .okAccepted ∧
      (cancelOperation s gid).2.cancellation_requests
        = s.cancellation_requests ++ [tid] ∧
      ((s.active_operations.map Prod.fst).Nodup →
        (cancelOperation s gid).2.active_operations.lookup gid = none) ∧
      (cancelOperation s gid).2.started_tasks = s.started_tasks) ∧
    (s.active_operations.lookup gid = none →
      (cancelOperation s gid).1 = .notFound ∧ (cancelOperation s gid).2 = s) := by
  constructor
  · intro tid h
    refine ⟨?_, ?_, ?_, ?_⟩
    · simp [cancelOperation, h]
    · simp [cancelOperation, h]
    · intro hnod
      simp only [cancelOperation, h]
      exact lookup_eraseP_self _ _ hnod
    · simp [cancelOperation, h]
  · intro h
    exact ⟨by simp [cancelOperation, h], by simp [cancelOperation, h]⟩

/-- C8, witness: cancelling `alpha` (active, owned by task 1) and
`beta` (no active operation) on `cState0`. -/
theorem c8_cancel_witness :
    (cancelOperation cState0 "alpha").1 = .okAccepted ∧
    (cancelOperation cState0 "alpha").2.active_operations.lookup "alpha" = none ∧
    (cancelOperation cState0 "alpha").2.cancellation_requests
      = cState0.cancellation_requests ++ [1] ∧
    (cancelOperation cState0 "beta").1 = .notFound ∧
    (cancelOperation cState0 "beta").2 = cState0 := by
  have h1 := (c8_cancel_semantics cState0 "alpha").1 1 rfl
  have h2 := (c8_cancel_semantics cState0 "beta").2 rfl
  exact ⟨h1.1, h1.2.2.1 (by decide), h1.2.1, h2.1, h2.2⟩

/-- C9: along any history of wrapper writes, progress reports and
cancellation requests, the task status observed through `GetTaskInfo`
is monotone in the lattice `Pending → Running → terminal` — it never
moves backwards — and once a terminal status is observed it is
unchanged by every later observation. -/
theorem c9_status_monotonic (tid : Nat) (desc : String)
    (events extra : List TaskEvent) :
    statusRank (getTaskInfo (runEvents (initLife tid desc) events).internal).status
      ≤ statusRank (getTaskInfo
          (runEvents (runEvents (initLife tid desc) events) extra).internal).status ∧
    ((getTaskInfo (runEvents (initLife tid desc) events).internal).status.isTerminal = true →
      (getTaskInfo (runEvents (runEvents (initLife tid desc) events) extra).internal).status
        = (getTaskInfo (runEvents (initLife tid desc) events).internal).status) := by
  have hwf : LifeWF (runEvents (initLife tid desc) events) :=
    lifeWF_runEvents _ _ (lifeWF_init tid desc)
  constructor
  · show statusRank (runEvents (initLife tid desc) events).internal.info.status
      ≤ statusRank (runEvents (runEvents (initLife tid desc) events) extra).internal.info.status
    exact statusRank_mono_runEvents _ extra hwf
  · intro ht
    show (runEvents (runEvents (initLife tid desc) events) extra).internal.info.status
      = (runEvents (initLife tid desc) events).internal.info.status
    exact terminal_frozen_runEvents _ extra hwf ht

/-- C9, witness: a task brought to `kSucceeded` stays `kSucceeded`
under a later cancellation request. -/
theorem c9_witness :
    statusRank (getTaskInfo (runEvents (initLife 1 "Installing alpha")
        [.wrapperBegin, .finalize (.ret true)]).internal).status
      ≤ statusRank (getTaskInfo (runEvents (runEvents (initLife 1 "Installing alpha")
        [.wrapperBegin, .finalize (.ret true)]) [.cancelRequest]).internal).status ∧
    (getTaskInfo (runEvents (runEvents (initLife 1 "Installing alpha")
        [.wrapperBegin, .finalize (.ret true)]) [.cancelRequest]).internal).status
      = (getTaskInfo (runEvents (initLife 1 "Installing alpha")
        [.wrapperBegin, .finalize (.ret true)]).internal).status := by
  have h := c9_status_monotonic 1 "Installing alpha"
    [.wrapperBegin, .finalize (.ret true)] [.cancelRequest]
  exact ⟨h.1, h.2 (by decide)⟩

/-- C10: an empty expected hash makes `VerifyFileHash` return OK
without consulting the file at all — the result is the same whatever
the on-disk bytes, even for a file that cannot be opened — so during
install a manifest entry with an empty `hash` is accepted with no
integrity check. -/
theorem c10_empty_hash_skips_verification
    (h1 h2 : String → Option String) (p : String)
    (o : FsOracle) (ip : String) (e : FileEntry)
    (hh : e.hash = "") (hdir : o.dirCreateOk (destPath ip e) = true)
    (hdl : o.downloadOk e.url = true) :
    verifyFileHash h1 p "" = .okSkippedEmpty ∧
    (verifyFileHash h1 p "").isOk = true ∧
    verifyFileHash h1 p "" = verifyFileHash h2 p "" ∧
    processFile o ip e = .stepOk := by
  refine ⟨rfl, rfl, rfl, ?_⟩
  simp [processFile, hdir, hdl, verifyFileHash, hh]

/-- C10, witness: an unreadable downloaded file with an empty expected
hash is accepted by the install loop. -/
theorem c10_empty_hash_witness :
    verifyFileHash cOracleNoFile.hashOf "base/data.bin" "" = .okSkippedEmpty ∧
    (verifyFileHash cOracleNoFile.hashOf "base/data.bin" "").isOk = true ∧
    verifyFileHash cOracleNoFile.hashOf "base/data.bin" ""
      = verifyFileHash cOracle.hashOf "base/data.bin" "" ∧
    processFile cOracleNoFile "base" cEmptyHashEntry = .stepOk :=
  c10_empty_hash_skips_verification cOracleNoFile.hashOf cOracle.hashOf
    "base/data.bin" cOracleNoFile "base" cEmptyHashEntry rfl rfl rfl

end CatalystCE
